import Mathlib

/-!
Verification of the context and knowledge-extraction pipeline of the
MARS History Project interview service, shallowly embedded in Lean 4.

The embedding covers:
- the sliding-window context builder and extraction trigger of
  app/services/context_manager.py,
- the knowledge extractor and its merge rules of
  app/services/knowledge_extractor.py (including a model of Python
  json.loads for the JSON subset exercised by the extraction path),
- the per-turn orchestration fragment of
  app/services/interview_manager.py relevant to the message counting,
  session lookup and knowledge retrieval behaviour.

External collaborators (the conversational model, speech synthesis, the
SQLite store) appear as function parameters of the embedded operations.
-/

namespace MarsHistory

/-! ## Data model -/

/-- One key insight entry of the knowledge record: a dict with keys
topic, insight, source quote and importance in the source schema. -/
structure Insight where
  topic : String
  insight : String
  source_quote : String
  importance : String
deriving DecidableEq, Repr

/-- One person entry of the knowledge record: name, callsign, context. -/
structure Person where
  name : String
  callsign : String
  context : String
deriving DecidableEq, Repr

/-- One technical-detail entry of the knowledge record. -/
structure TechDetail where
  system : String
  detail : String
  rationale : String
deriving DecidableEq, Repr

/-- The seven-category knowledge record of the data model (section 3 of
the design): the dict shape produced by KnowledgeExtractor.merge_knowledge. -/
structure KnowledgeRecord where
  topics_discussed : List String
  key_insights : List Insight
  people_mentioned : List Person
  technical_details : List TechDetail
  lessons_learned : List String
  open_questions : List String
  follow_up_topics : List String
deriving DecidableEq, Repr

/-- A message row as used by the orchestrator: role and text content.
Further row columns (ids, timestamps, audio references) play no role in
the embedded operations and are omitted. -/
structure Message where
  role : String
  content : String
deriving DecidableEq, Repr

/-- A role/content pair as sent to the conversational model API
(the stripped form produced by ContextManager.build_context). -/
structure ChatMessage where
  role : String
  content : String
deriving DecidableEq, Repr

/-! ## ContextManager (app/services/context_manager.py) -/

/-- Python falsy-or-default normalisation `given or default` applied by
the ContextManager constructor to max_messages and extraction_interval:
None and 0 both fall back to the configured default. -/
def normalizeSetting (given : Option Nat) (dflt : Nat) : Nat :=
  match given with
  | none => dflt
  | some 0 => dflt
  | some m => m

/-- Default Config.MAX_CONTEXT_MESSAGES. -/
def MAX_CONTEXT_MESSAGES : Nat := 30

/-- Default Config.EXTRACTION_INTERVAL. -/
def EXTRACTION_INTERVAL : Nat := 10

/-- The strip to role and content applied by build_context to each
windowed message before the API call. -/
def stripMessage (m : Message) : ChatMessage :=
  { role := m.role, content := m.content }

/-- ContextManager.build_context: keep the last max_messages messages
when the history is longer (Python slice all_messages[-max:], faithful
for max_messages greater than 0, which the constructor normalisation
guarantees), then strip each message to role and content. -/
def build_context (max_messages : Nat) (all_messages : List Message) : List ChatMessage :=
  let windowed :=
    if all_messages.length > max_messages then
      all_messages.drop (all_messages.length - max_messages)
    else
      all_messages
  windowed.map stripMessage

/-- ContextManager.should_extract: exchanges = message_count div 2;
fire when exchanges are positive and divisible by the interval. -/
def should_extract (extraction_interval : Nat) (message_count : Nat) : Bool :=
  decide (0 < message_count / 2) && (message_count / 2 % extraction_interval == 0)

/-! ## KnowledgeExtractor merge rules (app/services/knowledge_extractor.py)

The three merge helpers share one loop shape: walk a list keeping an item
exactly when its string key has not been seen yet, recording the key in a
seen set.  `dedupKeyed` is that loop, generalised over the key function;
the seen set is modelled as a list used only through membership. -/

/-- Python str.lower as used on the merge keys.  The strings involved
are ASCII (topics, names, callsigns), where lowercasing is the
character-wise ASCII map. -/
def strLower (s : String) : String :=
  String.mk (s.toList.map Char.toLower)

/-- The first-seen-key filtering loop shared by merge_unique (key:
lowercased item), merge_insights (key: lowercased topic) and
merge_people (key: lowercased name). -/
def dedupKeyed (key : α → String) : List α → List String → List α
  | [], _ => []
  | x :: xs, seen =>
    if key x ∈ seen then dedupKeyed key xs seen
    else x :: dedupKeyed key xs (key x :: seen)

/-- KnowledgeExtractor._merge_unique: iterate over list1 ++ list2 with an
initially empty seen set, keeping each item whose lowercasing is new.
All items handled here are strings, so the str fallback branch of the
source is not exercised. -/
def merge_unique (list1 list2 : List String) : List String :=
  dedupKeyed strLower (list1 ++ list2) []

/-- KnowledgeExtractor._merge_insights: start from existing (whose
lowercased topics populate the seen set) and append each new insight
whose lowercased topic is not yet seen, updating the seen set. -/
def merge_insights (existing new : List Insight) : List Insight :=
  existing ++ dedupKeyed (fun i => strLower i.topic) new
    (existing.map (fun i => strLower i.topic))

/-- KnowledgeExtractor._merge_people: same loop keyed by lowercased name. -/
def merge_people (existing new : List Person) : List Person :=
  existing ++ dedupKeyed (fun p => strLower p.name) new
    (existing.map (fun p => strLower p.name))

/-- The record built by KnowledgeExtractor.merge_knowledge when both
arguments are truthy dicts: category-specific merge of each field. -/
def mergeRecords (existing new : KnowledgeRecord) : KnowledgeRecord :=
  { topics_discussed := merge_unique existing.topics_discussed new.topics_discussed
    key_insights := merge_insights existing.key_insights new.key_insights
    people_mentioned := merge_people existing.people_mentioned new.people_mentioned
    technical_details := existing.technical_details ++ new.technical_details
    lessons_learned := merge_unique existing.lessons_learned new.lessons_learned
    open_questions := new.open_questions
    follow_up_topics := new.follow_up_topics }

/-- KnowledgeExtractor.merge_knowledge: a falsy (absent) side is answered
by returning the other side unchanged; two present records are merged
field by field.  `none` models a Python-falsy knowledge value (None or an
empty dict); a record dict carrying the seven schema keys is truthy. -/
def merge_knowledge : Option KnowledgeRecord → Option KnowledgeRecord → Option KnowledgeRecord
  | none, new => new
  | some existing, none => some existing
  | some existing, some new => some (mergeRecords existing new)

/-! ## Specification-side dedup (for the refinement claim C6)

`dedupSpec` renders the words of the specification: keep existing items
first and then new items, with the first occurrence of each key winning
and every later item of the same key dropped.  It is compared with the
source-derived loop `dedupKeyed` in the claim C6 theorem. -/

/-- Keep the first item of each key class, in order, dropping later
items whose key repeats an earlier one (the wording of the spec for
case-insensitive union dedup when instantiated with lowercasing). -/
def dedupSpec (key : α → String) : List α → List α
  | [] => []
  | x :: xs => x :: dedupSpec key (xs.filter (fun y => decide (key y ≠ key x)))
termination_by l => l.length
decreasing_by
  simp only [List.length_cons]
  exact Nat.lt_succ_of_le (List.length_filter_le _ _)

/-! ## Model of Python json.loads (used by KnowledgeExtractor.extract)

The extractor calls the Python standard-library json.loads on model
replies.  The parser below models json.loads for the JSON subset the
extraction path exercises: objects, arrays, strings with the common
single-character escapes, integer numbers and the three literals, with
JSON whitespace, requiring the whole input to be consumed.  Parse
failure (Python json.JSONDecodeError) is modelled as `none`. -/

/-- A parsed JSON value. -/
inductive Json where
  | null : Json
  | bool : Bool → Json
  | num : Int → Json
  | str : String → Json
  | arr : List Json → Json
  | obj : List (String × Json) → Json

/-- JSON whitespace skipping (space, tab, newline, carriage return). -/
def skipWs : List Char → List Char
  | c :: cs =>
    if c = ' ' ∨ c = '\t' ∨ c = '\n' ∨ c = '\r' then skipWs cs else c :: cs
  | [] => []

/-- Decode one escaped character of a JSON string literal. -/
def escChar (c : Char) : Option Char :=
  if c = '"' then some '"'
  else if c = '\\' then some '\\'
  else if c = '/' then some '/'
  else if c = 'n' then some '\n'
  else if c = 't' then some '\t'
  else if c = 'r' then some '\r'
  else if c = 'b' then some '\x08'
  else if c = 'f' then some '\x0c'
  else none

/-- Parse the body of a JSON string after its opening quote, returning
the decoded characters and the rest of the input. -/
def parseJStr : List Char → Option (List Char × List Char)
  | [] => none
  | c :: cs =>
    if c = '"' then some ([], cs)
    else if c = '\\' then
      match cs with
      | [] => none
      | e :: cs2 =>
        match escChar e with
        | some ec => (parseJStr cs2).map (fun r => (ec :: r.1, r.2))
        | none => none
    else (parseJStr cs).map (fun r => (c :: r.1, r.2))

/-- Parse a nonempty run of decimal digits into a natural number. -/
def parseNatNum (cs : List Char) : Option (Nat × List Char) :=
  let digits := cs.takeWhile Char.isDigit
  if digits.isEmpty then none
  else some (digits.foldl (fun acc c => acc * 10 + (c.toNat - 48)) 0,
    cs.dropWhile Char.isDigit)

/-- Parse an integer JSON number (optional leading minus). -/
def parseNum : List Char → Option (Json × List Char)
  | '-' :: rest => (parseNatNum rest).map (fun r => (Json.num (-(r.1 : Int)), r.2))
  | cs => (parseNatNum cs).map (fun r => (Json.num (r.1 : Int), r.2))

/-- Match an expected literal character sequence. -/
def dropLit : List Char → List Char → Option (List Char)
  | [], cs => some cs
  | l :: ls, c :: cs => if c = l then dropLit ls cs else none
  | _ :: _, [] => none

mutual

/-- Parse one JSON value after skipping leading whitespace; the fuel
bounds the nesting depth and is set above the input length. -/
def parseValue : Nat → List Char → Option (Json × List Char)
  | 0, _ => none
  | fuel + 1, cs =>
    match skipWs cs with
    | [] => none
    | c :: rest =>
      if c = '\x7b' then
        match skipWs rest with
        | '\x7d' :: r2 => some (Json.obj [], r2)
        | r => parseMembers fuel r
      else if c = '[' then
        match skipWs rest with
        | ']' :: r2 => some (Json.arr [], r2)
        | r => parseElems fuel r
      else if c = '"' then
        (parseJStr rest).map (fun r => (Json.str (String.mk r.1), r.2))
      else if c = 't' then
        (dropLit ['r', 'u', 'e'] rest).map (fun r => (Json.bool true, r))
      else if c = 'f' then
        (dropLit ['a', 'l', 's', 'e'] rest).map (fun r => (Json.bool false, r))
      else if c = 'n' then
        (dropLit ['u', 'l', 'l'] rest).map (fun r => (Json.null, r))
      else if c = '-' ∨ c.isDigit then parseNum (c :: rest)
      else none

/-- Parse the members of a nonempty JSON object up to its closing brace. -/
def parseMembers : Nat → List Char → Option (Json × List Char)
  | 0, _ => none
  | fuel + 1, cs =>
    match skipWs cs with
    | '"' :: r =>
      match parseJStr r with
      | some (k, r2) =>
        match skipWs r2 with
        | ':' :: r3 =>
          match parseValue fuel r3 with
          | some (v, r4) =>
            match skipWs r4 with
            | ',' :: r5 =>
              match parseMembers fuel r5 with
              | some (Json.obj fs, r6) => some (Json.obj ((String.mk k, v) :: fs), r6)
              | _ => none
            | '\x7d' :: r5 => some (Json.obj [(String.mk k, v)], r5)
            | _ => none
          | none => none
        | _ => none
      | none => none
    | _ => none

/-- Parse the elements of a nonempty JSON array up to its closing bracket. -/
def parseElems : Nat → List Char → Option (Json × List Char)
  | 0, _ => none
  | fuel + 1, cs =>
    match parseValue fuel cs with
    | some (v, r) =>
      match skipWs r with
      | ',' :: r2 =>
        match parseElems fuel r2 with
        | some (Json.arr vs, r3) => some (Json.arr (v :: vs), r3)
        | _ => none
      | ']' :: r2 => some (Json.arr [v], r2)
      | _ => none
    | none => none

end

/-- Model of Python json.loads: parse one JSON value and require that
only whitespace remains; any failure models json.JSONDecodeError. -/
def jsonLoads (s : String) : Option Json :=
  match parseValue (s.length + 1) s.toList with
  | some (j, rest) => if (skipWs rest).isEmpty then some j else none
  | none => none

/-! ## KnowledgeExtractor.extract parsing stage and recovery -/

/-- Python str.find for a single character: index of the first
occurrence, `none` for the -1 of no occurrence. -/
def strFind (s : String) (c : Char) : Option Nat :=
  s.toList.findIdx? (· = c)

/-- Python str.rfind for a single character: index of the last
occurrence, `none` for the -1 of no occurrence. -/
def strRfind (s : String) (c : Char) : Option Nat :=
  match s.toList.reverse.findIdx? (· = c) with
  | some j => some (s.toList.length - 1 - j)
  | none => none

/-- Python slicing text[a:b] for 0 ≤ a ≤ b within the string. -/
def strSlice (s : String) (a b : Nat) : String :=
  String.mk ((s.toList.drop a).take (b - a))

/-- The candidate substring tried by the recovery parse of
KnowledgeExtractor._extract_json_from_text: from the first opening brace
to one past the last closing brace, provided the first brace index
exists and the end index exceeds it (the Python -1 sentinel makes the
comparison fail when either brace is missing). -/
def recoverCandidate (text : String) : Option String :=
  match strFind text '\x7b', strRfind text '\x7d' with
  | some s, some e => if e + 1 > s then some (strSlice text s (e + 1)) else none
  | _, _ => none

/-- The all-empty knowledge structure returned by
KnowledgeExtractor._extract_json_from_text when parsing fails, and used
as the fallback of InterviewManager.get_extracted_knowledge: every one
of the seven categories an empty list. -/
def emptyKnowledgeJson : Json :=
  Json.obj
    [("topics_discussed", Json.arr []),
     ("key_insights", Json.arr []),
     ("people_mentioned", Json.arr []),
     ("technical_details", Json.arr []),
     ("lessons_learned", Json.arr []),
     ("open_questions", Json.arr []),
     ("follow_up_topics", Json.arr [])]

/-- KnowledgeExtractor._extract_json_from_text: try to parse the brace
substring when the index condition holds; on any failure return the
all-empty record.  The JSON parser is passed as a parameter (the model
of Python json.loads above, or an arbitrary parser in the general
error-handling theorem). -/
def extract_json_from_text (parse : String → Option Json) (text : String) : Json :=
  match recoverCandidate text with
  | some sub =>
    match parse sub with
    | some j => j
    | none => emptyKnowledgeJson
  | none => emptyKnowledgeJson

/-- Parsing stage of KnowledgeExtractor.extract, applied to the model
reply: parse directly, and on json.JSONDecodeError fall back to
_extract_json_from_text.  Prompt construction and the model call that
produce `response` are external collaborators. -/
def extract (parse : String → Option Json) (response : String) : Json :=
  match parse response with
  | some j => j
  | none => extract_json_from_text parse response

/-- The model reply text of the recovery example: the literal
json prefixed by a sentence, so that direct parsing fails. -/
def exampleReply : String :=
  "Here is the JSON:\n\x7b\"topics_discussed\": [\"x\"]\x7d"

/-- Association lookup among JSON object fields (first match wins). -/
def lookupField : List (String × Json) → String → Option Json
  | [], _ => none
  | (k, v) :: fs, key => if k = key then some v else lookupField fs key

/-- Lookup of a key in a JSON value: a field of an object, `none` on
any other shape. -/
def jsonLookup (j : Json) (key : String) : Option Json :=
  match j with
  | Json.obj fields => lookupField fields key
  | _ => none

/-- The keys of a JSON object, in order; empty for non-objects. -/
def jsonObjKeys : Json → List String
  | Json.obj fields => fields.map Prod.fst
  | _ => []

/-- Python truthiness of a parsed JSON value (the `or` fallback of
get_extracted_knowledge): null, false, zero, empty string, empty array
and empty object are falsy. -/
def jsonTruthy : Json → Bool
  | Json.null => false
  | Json.bool b => b
  | Json.num n => n != 0
  | Json.str s => !s.isEmpty
  | Json.arr l => !l.isEmpty
  | Json.obj l => !l.isEmpty

/-! ## InterviewManager orchestration fragment
(app/services/interview_manager.py)

The store is modelled as a partial map from session ids to session rows;
Message.get_by_session is the threaded message list; the conversational
model and speech synthesis are collaborators, the model reply entering
as a function of the context actually sent. -/

/-- The session row fields read by the embedded operations. -/
structure SessionRec where
  id : String
  voice_preset : String
  extracted_knowledge : Option Json

/-- The Python exceptions arising in the embedded paths: a NotFound
style error (present in the spec taxonomy; never constructed by this
code) and the AttributeError raised by attribute access on None. -/
inductive PyError where
  | notFound
  | attributeError
deriving DecidableEq, Repr

/-- Session.get_by_id: fetch the row, `none` when the id is unknown. -/
def Session_get_by_id (store : String → Option SessionRec) (session_id : String) :
    Option SessionRec :=
  store session_id

/-- The fields of the process_input return value relevant here. -/
structure ProcessResult where
  response_text : String
  message_count : Nat
  extraction_triggered : Bool
deriving DecidableEq, Repr

/-- Message-threading fragment of InterviewManager.process_input for a
session that was found: append the user message, measure the count,
build the sliding-window context, obtain the model reply, append it as
the assistant message, and report (message_count + 2) div 2 as the
exchange count together with the trigger decision at message_count + 1.
Returns the result dict fragment and the final message log. -/
def process_input_turn (max_messages extraction_interval : Nat)
    (claudeReply : List ChatMessage → String)
    (prior : List Message) (user_text : String) :
    ProcessResult × List Message :=
  let afterUser := prior ++ [{ role := "user", content := user_text }]
  let message_count := afterUser.length
  let context := build_context max_messages afterUser
  let response_text := claudeReply context
  let final := afterUser ++ [{ role := "assistant", content := response_text }]
  ({ response_text := response_text,
     message_count := (message_count + 2) / 2,
     extraction_triggered := should_extract extraction_interval (message_count + 1) },
   final)

/-- InterviewManager.process_input including the session lookup: when the
id is unknown, Session.get_by_id returns None and the immediately
following attribute access session.get raises an uncaught
AttributeError, which propagates to the caller; otherwise the turn runs. -/
def process_input (store : String → Option SessionRec)
    (max_messages extraction_interval : Nat)
    (claudeReply : List ChatMessage → String)
    (messages : List Message) (session_id : String) (user_text : String) :
    Except PyError (ProcessResult × List Message) :=
  match Session_get_by_id store session_id with
  | none => Except.error PyError.attributeError
  | some _ =>
      Except.ok (process_input_turn max_messages extraction_interval
        claudeReply messages user_text)

/-- InterviewManager.get_extracted_knowledge: load the session (an
unknown id again raises AttributeError on the None row), then return the
stored knowledge, or the all-empty seven-category record when the stored
value is absent or falsy. -/
def get_extracted_knowledge (store : String → Option SessionRec) (session_id : String) :
    Except PyError Json :=
  match Session_get_by_id store session_id with
  | none => Except.error PyError.attributeError
  | some s =>
      Except.ok
        (match s.extracted_knowledge with
         | none => emptyKnowledgeJson
         | some j => if jsonTruthy j then j else emptyKnowledgeJson)

/-! ## Concrete fixtures used by the witness theorems -/

/-- A three-message history fixture. -/
def msgsW : List Message :=
  [{ role := "assistant", content := "greeting" },
   { role := "user", content := "first answer" },
   { role := "assistant", content := "first question" }]

/-- A session row whose stored knowledge is still null. -/
def sessionNullKnowledge : SessionRec :=
  { id := "s1", voice_preset := "premium_female", extracted_knowledge := none }

/-- A store containing that session under every id. -/
def storeOne : String → Option SessionRec := fun _ => some sessionNullKnowledge

/-- An empty store: every session id is unknown. -/
def storeNone : String → Option SessionRec := fun _ => none

/-! ## Generic lemmas about the first-seen-key loop -/

/-- The loop result only depends on the membership of the seen set. -/
theorem dedupKeyed_congr (key : α → String) (l : List α) :
    ∀ s t : List String, (∀ a, a ∈ s ↔ a ∈ t) →
      dedupKeyed key l s = dedupKeyed key l t := by
  induction l with
  | nil => intro s t _; rfl
  | cons x xs ih =>
    intro s t hst
    by_cases hx : key x ∈ s
    · rw [dedupKeyed, if_pos hx, dedupKeyed, if_pos ((hst _).mp hx), ih s t hst]
    · rw [dedupKeyed, if_neg hx, dedupKeyed, if_neg (fun h => hx ((hst _).mpr h))]
      refine congrArg (x :: ·) (ih _ _ ?_)
      intro a
      simp only [List.mem_cons]
      exact or_congr Iff.rfl (hst a)

/-- Splitting the loop over an append: the second half runs with every
key of the first half added to the seen set. -/
theorem dedupKeyed_append (key : α → String) (u v : List α) :
    ∀ seen : List String,
      dedupKeyed key (u ++ v) seen =
        dedupKeyed key u seen ++ dedupKeyed key v (u.map key ++ seen) := by
  induction u with
  | nil => intro seen; simp [dedupKeyed]
  | cons x xs ih =>
    intro seen
    by_cases hx : key x ∈ seen
    · rw [List.cons_append, dedupKeyed, if_pos hx, ih seen, dedupKeyed, if_pos hx]
      refine congrArg _ (dedupKeyed_congr key v _ _ ?_)
      intro a
      simp only [List.map_cons, List.cons_append, List.mem_cons, List.mem_append]
      constructor
      · rintro (h | h) <;> simp [h]
      · rintro (h | h | h)
        · subst h; exact Or.inr hx
        · exact Or.inl h
        · exact Or.inr h
    · rw [List.cons_append, dedupKeyed, if_neg hx, ih (key x :: seen),
        dedupKeyed, if_neg hx, List.cons_append]
      refine congrArg (x :: ·) (congrArg _ (dedupKeyed_congr key v _ _ ?_))
      intro a
      simp only [List.map_cons, List.cons_append, List.mem_cons, List.mem_append]
      tauto

/-- Every input key is either already seen or represented among the keys
of the loop output. -/
theorem dedupKeyed_cover (key : α → String) (l : List α) :
    ∀ seen : List String, ∀ x ∈ l,
      key x ∈ seen ∨ key x ∈ (dedupKeyed key l seen).map key := by
  induction l with
  | nil => intro seen x hx; cases hx
  | cons y ys ih =>
    intro seen x hx
    rcases List.mem_cons.mp hx with h | h
    · subst h
      by_cases hy : key x ∈ seen
      · exact Or.inl hy
      · right
        rw [dedupKeyed, if_neg hy]
        simp
    · by_cases hy : key y ∈ seen
      · rw [dedupKeyed, if_pos hy]
        exact ih seen x h
      · rw [dedupKeyed, if_neg hy]
        rcases ih (key y :: seen) x h with hc | hc
        · rcases List.mem_cons.mp hc with hc | hc
          · right; simp [hc]
          · exact Or.inl hc
        · right; simp only [List.map_cons, List.mem_cons]; exact Or.inr hc

/-- When every input key is already seen, the loop keeps nothing. -/
theorem dedupKeyed_eq_nil (key : α → String) (l : List α) (seen : List String)
    (h : ∀ x ∈ l, key x ∈ seen) : dedupKeyed key l seen = [] := by
  induction l with
  | nil => rfl
  | cons x xs ih =>
    rw [dedupKeyed, if_pos (h x (List.mem_cons_self x xs))]
    exact ih fun y hy => h y (List.mem_cons_of_mem x hy)

/-- Keys kept by the loop were not in the initial seen set. -/
theorem dedupKeyed_not_mem_seen (key : α → String) (l : List α) :
    ∀ seen : List String, ∀ y ∈ dedupKeyed key l seen, key y ∉ seen := by
  induction l with
  | nil => intro seen y hy; cases hy
  | cons x xs ih =>
    intro seen y hy
    by_cases hx : key x ∈ seen
    · rw [dedupKeyed, if_pos hx] at hy
      exact ih seen y hy
    · rw [dedupKeyed, if_neg hx] at hy
      rcases List.mem_cons.mp hy with h | h
      · subst h; exact hx
      · intro hmem
        exact ih (key x :: seen) y h (List.mem_cons_of_mem _ hmem)

/-- The loop output has pairwise distinct keys. -/
theorem dedupKeyed_pairwise (key : α → String) (l : List α) :
    ∀ seen : List String,
      (dedupKeyed key l seen).Pairwise (fun a b => key a ≠ key b) := by
  induction l with
  | nil => intro seen; exact List.Pairwise.nil
  | cons x xs ih =>
    intro seen
    by_cases hx : key x ∈ seen
    · rw [dedupKeyed, if_pos hx]; exact ih seen
    · rw [dedupKeyed, if_neg hx]
      refine List.Pairwise.cons ?_ (ih (key x :: seen))
      intro y hy heq
      exact dedupKeyed_not_mem_seen key xs (key x :: seen) y hy
        (heq ▸ List.mem_cons_self _ _)

/-- A list with pairwise distinct keys, none of them seen, is a fixed
point of the loop. -/
theorem dedupKeyed_fixed (key : α → String) (l : List α)
    (hpw : l.Pairwise (fun a b => key a ≠ key b)) :
    ∀ seen : List String, (∀ x ∈ l, key x ∉ seen) →
      dedupKeyed key l seen = l := by
  induction l with
  | nil => intro seen _; rfl
  | cons x xs ih =>
    intro seen hseen
    rw [dedupKeyed, if_neg (hseen x (List.mem_cons_self x xs))]
    rcases List.pairwise_cons.mp hpw with ⟨hx, hpw'⟩
    refine congrArg (x :: ·) (ih hpw' (key x :: seen) ?_)
    intro y hy
    simp only [List.mem_cons, not_or]
    exact ⟨fun h => hx y hy h.symm, hseen y (List.mem_cons_of_mem x hy)⟩

/-! ## Idempotence of the category merges -/

/-- Remerging the same second list onto a merge_unique result changes
nothing: every lowercased item of list2 is already represented. -/
theorem merge_unique_idem (l1 l2 : List String) :
    merge_unique (merge_unique l1 l2) l2 = merge_unique l1 l2 := by
  unfold merge_unique
  rw [dedupKeyed_append]
  have hfix : dedupKeyed strLower (dedupKeyed strLower (l1 ++ l2) []) [] =
      dedupKeyed strLower (l1 ++ l2) [] := by
    refine dedupKeyed_fixed _ _ (dedupKeyed_pairwise _ _ _) _ ?_
    intro x _ hx
    cases hx
  have hnil : dedupKeyed strLower l2
      ((dedupKeyed strLower (l1 ++ l2) []).map strLower ++ []) = [] := by
    refine dedupKeyed_eq_nil _ _ _ ?_
    intro x hx
    rcases dedupKeyed_cover strLower (l1 ++ l2) [] x
        (List.mem_append.mpr (Or.inr hx)) with h | h
    · cases h
    · exact List.mem_append.mpr (Or.inl h)
  rw [hfix, hnil, List.append_nil]

/-- Remerging the same new insights onto a merge_insights result changes
nothing: every lowercased new topic is already represented. -/
theorem merge_insights_idem (e n : List Insight) :
    merge_insights (merge_insights e n) n = merge_insights e n := by
  unfold merge_insights
  have hnil : dedupKeyed (fun i => strLower i.topic) n
      ((e ++ dedupKeyed (fun i => strLower i.topic) n
        (e.map (fun i => strLower i.topic))).map (fun i => strLower i.topic)) = [] := by
    refine dedupKeyed_eq_nil _ _ _ ?_
    intro x hx
    rw [List.map_append]
    rcases dedupKeyed_cover (fun i => strLower i.topic) n
        (e.map (fun i => strLower i.topic)) x hx with h | h
    · exact List.mem_append.mpr (Or.inl h)
    · exact List.mem_append.mpr (Or.inr h)
  rw [hnil, List.append_nil]

/-- Remerging the same new people onto a merge_people result changes
nothing: every lowercased new name is already represented. -/
theorem merge_people_idem (e n : List Person) :
    merge_people (merge_people e n) n = merge_people e n := by
  unfold merge_people
  have hnil : dedupKeyed (fun p => strLower p.name) n
      ((e ++ dedupKeyed (fun p => strLower p.name) n
        (e.map (fun p => strLower p.name))).map (fun p => strLower p.name)) = [] := by
    refine dedupKeyed_eq_nil _ _ _ ?_
    intro x hx
    rw [List.map_append]
    rcases dedupKeyed_cover (fun p => strLower p.name) n
        (e.map (fun p => strLower p.name)) x hx with h | h
    · exact List.mem_append.mpr (Or.inl h)
    · exact List.mem_append.mpr (Or.inr h)
  rw [hnil, List.append_nil]

/-- Claim C1: for every pair of knowledge records, merging the same new
payload a second time onto the merged result leaves key_insights,
people_mentioned, topics_discussed and lessons_learned unchanged
(idempotence of the dedup-style fields), and both merge results carry
exactly the open_questions and follow_up_topics of the new payload
(replacement, no accumulation). -/
theorem merge_knowledge_idem_fields (e n : KnowledgeRecord) :
    ∃ m1 m2, merge_knowledge (some e) (some n) = some m1 ∧
      merge_knowledge (some m1) (some n) = some m2 ∧
      m2.key_insights = m1.key_insights ∧
      m2.people_mentioned = m1.people_mentioned ∧
      m2.topics_discussed = m1.topics_discussed ∧
      m2.lessons_learned = m1.lessons_learned ∧
      m1.open_questions = n.open_questions ∧
      m2.open_questions = n.open_questions ∧
      m1.follow_up_topics = n.follow_up_topics ∧
      m2.follow_up_topics = n.follow_up_topics := by
  refine ⟨mergeRecords e n, mergeRecords (mergeRecords e n) n, rfl, rfl,
    ?_, ?_, ?_, ?_, rfl, rfl, rfl, rfl⟩
  · exact merge_insights_idem e.key_insights n.key_insights
  · exact merge_people_idem e.people_mentioned n.people_mentioned
  · exact merge_unique_idem e.topics_discussed n.topics_discussed
  · exact merge_unique_idem e.lessons_learned n.lessons_learned

/-! ## Equivalence of the source loop with the spec-side dedup -/

/-- The seen-set loop computes the first-occurrence-per-key dedup of the
input restricted to unseen keys. -/
theorem dedupKeyed_eq_dedupSpec (key : α → String) (l : List α) :
    ∀ seen : List String,
      dedupKeyed key l seen =
        dedupSpec key (l.filter (fun x => decide (key x ∉ seen))) := by
  induction l with
  | nil => intro seen; simp [dedupKeyed, dedupSpec]
  | cons x xs ih =>
    intro seen
    by_cases hx : key x ∈ seen
    · have hd : decide (key x ∉ seen) = false := by simp [hx]
      rw [dedupKeyed, if_pos hx, List.filter_cons, hd]
      simp only [Bool.false_eq_true, if_false]
      exact ih seen
    · have hd : decide (key x ∉ seen) = true := by simp [hx]
      rw [dedupKeyed, if_neg hx, List.filter_cons, hd]
      simp only [if_true]
      simp only [dedupSpec]
      rw [ih (key x :: seen), List.filter_filter]
      have hf : List.filter (fun y => decide (key y ∉ key x :: seen)) xs =
          List.filter (fun a => decide (key a ≠ key x) && decide (key a ∉ seen)) xs := by
        apply List.filter_congr
        intro a _
        by_cases h1 : key a = key x <;> by_cases h2 : key a ∈ seen <;>
          simp [List.mem_cons, h1, h2]
      rw [hf]

/-- Claim C6: merging two string lists with merge_unique yields their
union with case-insensitive deduplication, existing items first and then
new items, the first-seen casing winning (the spec-side dedupSpec over
the concatenation); in particular on the ALE and MS-DMT example it
produces the three-element list with the first-seen casing. -/
theorem merge_unique_case_insensitive_union :
    (∀ list1 list2 : List String,
        merge_unique list1 list2 = dedupSpec strLower (list1 ++ list2)) ∧
    merge_unique ["ALE", "MS-DMT"] ["ale", "MARS-ALE"] =
      ["ALE", "MS-DMT", "MARS-ALE"] := by
  constructor
  · intro l1 l2
    rw [merge_unique, dedupKeyed_eq_dedupSpec]
    congr 1
    apply List.filter_eq_self.mpr
    intro a _
    simp
  · decide

/-! ## ContextManager claims -/

/-- Claim C2: for every history and positive window maximum, a history
not exceeding the maximum is returned whole and in order (as role and
content pairs), and a longer history is returned as exactly its last M
messages in original relative order. -/
theorem build_context_window (M : Nat) (hM : 0 < M) (msgs : List Message) :
    (msgs.length ≤ M → build_context M msgs = msgs.map stripMessage) ∧
    (M < msgs.length →
      ∃ dropped kept, msgs = dropped ++ kept ∧ kept.length = M ∧
        build_context M msgs = kept.map stripMessage) := by
  constructor
  · intro h
    simp only [build_context]
    rw [if_neg (by omega)]
  · intro h
    refine ⟨msgs.take (msgs.length - M), msgs.drop (msgs.length - M),
      (List.take_append_drop _ _).symm, ?_, ?_⟩
    · rw [List.length_drop]; omega
    · simp only [build_context]
      rw [if_pos (by omega)]

/-- Witness for C2: the window bound 2 is positive, and the conclusion
holds at the concrete three-message history. -/
theorem build_context_window_witness :
    0 < 2 ∧
    ((msgsW.length ≤ 2 → build_context 2 msgsW = msgsW.map stripMessage) ∧
     (2 < msgsW.length →
       ∃ dropped kept, msgsW = dropped ++ kept ∧ kept.length = 2 ∧
         build_context 2 msgsW = kept.map stripMessage)) :=
  ⟨by decide, build_context_window 2 (by decide) msgsW⟩

/-- Claim C3: for a positive configured interval (guaranteed by the
constructor normalisation; a zero interval would divide by zero in the
Python modulo), should_extract holds exactly when the exchange count
n div 2 is positive and divisible by the interval. -/
theorem should_extract_iff (extraction_interval message_count : Nat)
    (_hpos : 0 < extraction_interval) :
    should_extract extraction_interval message_count = true ↔
      0 < message_count / 2 ∧ message_count / 2 % extraction_interval = 0 := by
  simp [should_extract]

/-- Witness for C3: interval 10 is positive and the equivalence holds at
message count 20. -/
theorem should_extract_iff_witness :
    0 < 10 ∧
    (should_extract 10 20 = true ↔ 0 < 20 / 2 ∧ 20 / 2 % 10 = 0) :=
  ⟨by decide, should_extract_iff 10 20 (by decide)⟩

/-- Counterexample for C4: the message count 21 lies in the range 21 to
39 where the claim asserts falsity, yet 21 div 2 is 10, positive and
divisible by the interval, so should_extract fires there. -/
theorem should_extract_twenty_one_cex :
    21 ≤ 21 ∧ 21 ≤ 39 ∧ should_extract 10 21 = true := by decide

/-- Amended claim C4: with the extraction interval 10, should_extract is
false for all message counts below 20, true at 20 and also at 21 (both
halve to 10 exchanges), false for counts 22 to 39, and true at 40. -/
theorem should_extract_interval_ten :
    (∀ n, n < 20 → should_extract 10 n = false) ∧
    should_extract 10 20 = true ∧
    should_extract 10 21 = true ∧
    (∀ n, n < 40 → 21 < n → should_extract 10 n = false) ∧
    should_extract 10 40 = true := by decide

/-! ## KnowledgeExtractor extract claims -/

/-- Claim C5: for every parser behaviour and reply text, when direct
parsing fails extract falls through to the brace-substring recovery, and
whenever the recovery also fails (no candidate substring, or the
candidate does not parse) the result is the record with all seven
categories empty — no error propagates. -/
theorem extract_malformed_never_raises (parse : String → Option Json)
    (response : String) (hfail : parse response = none) :
    extract parse response = extract_json_from_text parse response ∧
    (recoverCandidate response = none →
      extract parse response = emptyKnowledgeJson) ∧
    (∀ sub, recoverCandidate response = some sub → parse sub = none →
      extract parse response = emptyKnowledgeJson) := by
  refine ⟨?_, ?_, ?_⟩
  · simp only [extract, hfail]
  · intro hrc
    simp only [extract, extract_json_from_text, hfail, hrc]
  · intro sub hrc hsub
    simp only [extract, extract_json_from_text, hfail, hrc, hsub]

/-- Witness for C5: the always-failing parser on a braceless reply. -/
theorem extract_malformed_never_raises_witness :
    (fun _ : String => (none : Option Json)) "no json here" = none ∧
    (extract (fun _ => none) "no json here" =
        extract_json_from_text (fun _ => none) "no json here" ∧
      (recoverCandidate "no json here" = none →
        extract (fun _ => none) "no json here" = emptyKnowledgeJson) ∧
      (∀ sub, recoverCandidate "no json here" = some sub →
        (fun _ : String => (none : Option Json)) sub = none →
        extract (fun _ => none) "no json here" = emptyKnowledgeJson)) :=
  ⟨rfl, extract_malformed_never_raises (fun _ => none) "no json here" rfl⟩

/-- Counterexample for C7: on the example reply the recovered object
carries only the key topics_discussed; the six other categories are not
present as keys at all, so they are not present as empty lists. -/
theorem extract_recovery_missing_categories :
    jsonObjKeys (extract jsonLoads exampleReply) = ["topics_discussed"] ∧
    "key_insights" ∉ jsonObjKeys (extract jsonLoads exampleReply) ∧
    "open_questions" ∉ jsonObjKeys (extract jsonLoads exampleReply) :=
  ⟨rfl, by decide, by decide⟩

/-- Amended claim C7: direct parsing of the example reply fails, and the
recovery parse yields exactly the one-key object mapping
topics_discussed to the singleton list of the string x; the other six
categories are absent from the object (downstream merge accessors
default them to empty lists). -/
theorem extract_recovery_example :
    jsonLoads exampleReply = none ∧
    extract jsonLoads exampleReply =
      Json.obj [("topics_discussed", Json.arr [Json.str "x"])] :=
  ⟨rfl, rfl⟩

/-! ## InterviewManager claims -/

/-- The exchange count reported by the turn fragment, related to the
final log length: it is the final length plus one, halved. -/
theorem process_input_turn_count (max_messages extraction_interval : Nat)
    (claudeReply : List ChatMessage → String)
    (prior : List Message) (user_text : String) :
    (process_input_turn max_messages extraction_interval claudeReply
        prior user_text).1.message_count =
      ((process_input_turn max_messages extraction_interval claudeReply
        prior user_text).2.length + 1) / 2 := by
  simp [process_input_turn, List.length_append]
  omega

/-- Counterexample for C8: with a greeting already logged, a processed
turn reports exchange count 2 while the total message count after both
appends is 3, whose integer half is 1. -/
theorem process_input_exchange_count_cex :
    ∃ r final,
      process_input storeOne 30 10 (fun _ => "reply")
        [{ role := "assistant", content := "greeting" }] "s1" "hello" =
        Except.ok (r, final) ∧
      r.message_count = 2 ∧ final.length = 3 ∧
      r.message_count ≠ final.length / 2 := by
  refine ⟨_, _, rfl, ?_, ?_, ?_⟩ <;> decide

/-- Amended claim C8: for every successfully completed turn, the
reported exchange count equals the session's total message count after
the turn's two appends, plus one, integer-divided by 2 (one more than
the claimed half whenever that total is odd, as it is in every reachable
session state). -/
theorem process_input_exchange_count (store : String → Option SessionRec)
    (s : SessionRec) (session_id : String) (h : store session_id = some s)
    (max_messages extraction_interval : Nat)
    (claudeReply : List ChatMessage → String)
    (messages : List Message) (user_text : String) :
    ∃ r final,
      process_input store max_messages extraction_interval claudeReply
        messages session_id user_text = Except.ok (r, final) ∧
      r.message_count = (final.length + 1) / 2 := by
  refine ⟨(process_input_turn max_messages extraction_interval claudeReply
      messages user_text).1,
    (process_input_turn max_messages extraction_interval claudeReply
      messages user_text).2, ?_,
    process_input_turn_count max_messages extraction_interval claudeReply
      messages user_text⟩
  simp only [process_input, Session_get_by_id, h]

/-- Witness for the amended C8 at a concrete store and turn. -/
theorem process_input_exchange_count_witness :
    storeOne "s1" = some sessionNullKnowledge ∧
    (∃ r final,
      process_input storeOne 30 10 (fun _ => "reply") msgsW "s1" "hello" =
        Except.ok (r, final) ∧
      r.message_count = (final.length + 1) / 2) :=
  ⟨rfl, process_input_exchange_count storeOne sessionNullKnowledge "s1" rfl
    30 10 (fun _ => "reply") msgsW "hello"⟩

/-- Counterexample for C9: on an unknown session id process_input fails
with the AttributeError raised by attribute access on the None row, and
that error is not the NotFound error the claim names. -/
theorem process_input_unknown_cex :
    process_input storeNone 30 10 (fun _ => "reply") [] "missing-id" "hello" =
      Except.error PyError.attributeError ∧
    (Except.error PyError.attributeError :
        Except PyError (ProcessResult × List Message)) ≠
      Except.error PyError.notFound := by
  refine ⟨rfl, ?_⟩
  intro h
  injection h with h2
  exact PyError.noConfusion h2

/-- Amended claim C9: for every unknown session id, process_input fails
and the failure is surfaced to the caller, but as the AttributeError of
reading an attribute of the None returned by Session.get_by_id, not as a
NotFound error. -/
theorem process_input_unknown_surfaces (store : String → Option SessionRec)
    (max_messages extraction_interval : Nat)
    (claudeReply : List ChatMessage → String)
    (messages : List Message) (session_id user_text : String)
    (h : store session_id = none) :
    process_input store max_messages extraction_interval claudeReply messages
      session_id user_text = Except.error PyError.attributeError := by
  simp only [process_input, Session_get_by_id, h]

/-- Witness for the amended C9 on the empty store. -/
theorem process_input_unknown_surfaces_witness :
    storeNone "missing-id" = none ∧
    process_input storeNone 30 10 (fun _ => "reply") [] "missing-id" "hello" =
      Except.error PyError.attributeError :=
  ⟨rfl, process_input_unknown_surfaces storeNone 30 10 (fun _ => "reply") []
    "missing-id" "hello" rfl⟩

/-- Claim C10: for every stored session whose knowledge is still null,
get_extracted_knowledge returns the record with all seven categories
present as empty lists — never null. -/
theorem get_extracted_knowledge_null (store : String → Option SessionRec)
    (session_id : String) (s : SessionRec)
    (h1 : store session_id = some s) (h2 : s.extracted_knowledge = none) :
    get_extracted_knowledge store session_id = Except.ok emptyKnowledgeJson ∧
    emptyKnowledgeJson ≠ Json.null ∧
    jsonLookup emptyKnowledgeJson "topics_discussed" = some (Json.arr []) ∧
    jsonLookup emptyKnowledgeJson "key_insights" = some (Json.arr []) ∧
    jsonLookup emptyKnowledgeJson "people_mentioned" = some (Json.arr []) ∧
    jsonLookup emptyKnowledgeJson "technical_details" = some (Json.arr []) ∧
    jsonLookup emptyKnowledgeJson "lessons_learned" = some (Json.arr []) ∧
    jsonLookup emptyKnowledgeJson "open_questions" = some (Json.arr []) ∧
    jsonLookup emptyKnowledgeJson "follow_up_topics" = some (Json.arr []) := by
  refine ⟨?_, ?_, rfl, rfl, rfl, rfl, rfl, rfl, rfl⟩
  · simp only [get_extracted_knowledge, Session_get_by_id, h1, h2]
  · intro h
    exact Json.noConfusion h

/-- Witness for C10 at a concrete store and session row. -/
theorem get_extracted_knowledge_null_witness :
    storeOne "s1" = some sessionNullKnowledge ∧
    sessionNullKnowledge.extracted_knowledge = none ∧
    (get_extracted_knowledge storeOne "s1" = Except.ok emptyKnowledgeJson ∧
     emptyKnowledgeJson ≠ Json.null ∧
     jsonLookup emptyKnowledgeJson "topics_discussed" = some (Json.arr []) ∧
     jsonLookup emptyKnowledgeJson "key_insights" = some (Json.arr []) ∧
     jsonLookup emptyKnowledgeJson "people_mentioned" = some (Json.arr []) ∧
     jsonLookup emptyKnowledgeJson "technical_details" = some (Json.arr []) ∧
     jsonLookup emptyKnowledgeJson "lessons_learned" = some (Json.arr []) ∧
     jsonLookup emptyKnowledgeJson "open_questions" = some (Json.arr []) ∧
     jsonLookup emptyKnowledgeJson "follow_up_topics" = some (Json.arr [])) :=
  ⟨rfl, rfl, get_extracted_knowledge_null storeOne "s1" sessionNullKnowledge rfl rfl⟩

end MarsHistory
